import Mathlib

/-!
Verification of the redundancy-estimation engine of `iml_data_analysis/iml_1_eda.py`.

The shallow embedding below translates the engine's pure structure into Lean:
pandas single-column objects become `Frame` (an integer row index plus rational
values), the mutable task dictionary becomes the `Task` record (including the
two derived repeat-count entries that `compute_redundancy` inserts in place),
and the external machine-learning collaborators (the `RepeatedGroupKFold`
splitter from the separate `sklearn_repeated_group_k_fold` package, and
`RandomizedSearchCV.fit` followed by `best_estimator_.predict`) are abstracted
as an oracle record `MLEnv`, since their stochastic internals are outside this
repository's sources.  Fallible Python code (raised `ValueError` /
`IndexError`) is modelled with `Except String` and `Option`.
-/

namespace IML

/-- A single-column pandas object (`Series` / one-column `DataFrame`):
an integer row index together with the column's float values, modelled as `ℚ`. -/
structure Frame where
  idx : List Nat
  vals : List ℚ
deriving DecidableEq

/-- `df.iloc[ixs]`: positional row selection.  pandas raises `IndexError` when a
positional index is out of bounds; that failure is modelled as `none`.  The
selected rows keep their original index labels. -/
def Frame.iloc (f : Frame) (ixs : List Nat) : Option Frame :=
  if ixs.all (fun i => decide (i < f.vals.length)) then
    some ⟨ixs.map (fun i => f.idx.getD i 0), ixs.map (fun i => f.vals.getD i 0)⟩
  else none

/-- `df.reset_index(drop=True)`: relabel the rows `0..len-1`. -/
def Frame.reset_index (f : Frame) : Frame :=
  ⟨List.range f.vals.length, f.vals⟩

/-- A frame with the default `0..len-1` index, as produced by
`pd.DataFrame(...)` on freshly constructed column data. -/
def Frame.ofVals (vs : List ℚ) : Frame :=
  ⟨List.range vs.length, vs⟩

/-- `split_data` (iml_1_eda.py, lines 157-191): slice a dataframe into a
training and a testing dataframe via positional index arrays, resetting the
row index of both parts; an empty dataframe yields two empty dataframes
without looking at the index arrays. -/
def split_data (df : Frame) (i_trn i_tst : List Nat) : Option (Frame × Frame) :=
  if ¬ df.vals.isEmpty then do
    let t ← df.iloc i_trn
    let s ← df.iloc i_tst
    some (t.reset_index, s.reset_index)
  else
    some (⟨[], []⟩, ⟨[], []⟩)

/-- The fixed (non-searched) architecture of the boosted-tree estimator built
by `prepare` (iml_1_eda.py, lines 74-139): the loss objective, the bounded leaf
count, the unconstrained depth and the class-weight policy. -/
structure EstimatorCfg where
  model : String
  objective : String
  num_leaves : Nat
  max_depth : Int
  n_estimators : Nat
  class_weight_balanced : Bool
deriving DecidableEq

/-- The three searched hyperparameter distributions (iml_1_eda.py, lines
145-151): `colsample_bytree ~ uniform(0.1, 0.9)` (support [0.1, 1]),
`extra_trees ∈ {True, False}`, `path_smooth ~ loguniform(1, 100)`. -/
structure SearchSpace where
  colsample_bytree_lo : ℚ
  colsample_bytree_hi : ℚ
  extra_trees : List Bool
  path_smooth_lo : ℚ
  path_smooth_hi : ℚ
deriving DecidableEq

/-- The search space literal of `prepare` (lines 147-151). -/
def lgbm_space : SearchSpace :=
  ⟨1/10, 1, [true, false], 1, 100⟩

/-- `prepare` (iml_1_eda.py, lines 57-154): build the estimator configuration
and the search space for a given objective; any objective outside
`{regression, binary, multiclass}` raises `ValueError('OBJECTIVE not found.')`
before any estimator is constructed. -/
def prepare (objective : String) : Except String (EstimatorCfg × SearchSpace) :=
  if objective = "regression" then
    Except.ok (⟨"LGBMRegressor", "huber", 100, -1, 100, false⟩, lgbm_space)
  else if objective = "binary" ∨ objective = "multiclass" then
    Except.ok (⟨"LGBMClassifier", objective, 100, -1, 100, true⟩, lgbm_space)
  else
    Except.error "OBJECTIVE not found."

/-- The task dictionary fields consumed by the redundancy engine
(iml_1_eda.py, `main` lines 1231-1257), together with the two derived
repeat-count entries that `compute_redundancy` inserts into the same
dictionary in place (lines 226 and 259-260); before the first call they are
absent, modelled as `none`. -/
structure Task where
  N_CV_FOLDS : Nat
  N_PRED_OUTER_CV : Nat
  N_PRED_INNER_CV : Nat
  N_SAMPLES_RS : Nat
  N_JOBS : Int
  OBJECTIVE : String
  X_CON_NAMES : List String
  X_CAT_BIN_NAMES : List String
  X_CAT_MULT_NAMES : List String
  Y_NAMES : List String
  n_rep_outer_cv : Option Nat
  n_rep_inner_cv : Option Nat
deriving DecidableEq

/-- The configuration part of a task: every field except the two derived
repeat-count entries. -/
def Task.core (t : Task) :
    Nat × Nat × Nat × Nat × Int × String × List String × List String ×
      List String × List String :=
  (t.N_CV_FOLDS, t.N_PRED_OUTER_CV, t.N_PRED_INNER_CV, t.N_SAMPLES_RS, t.N_JOBS,
    t.OBJECTIVE, t.X_CON_NAMES, t.X_CAT_BIN_NAMES, t.X_CAT_MULT_NAMES, t.Y_NAMES)

/-- `math.ceil(a / b)` on natural numbers, as computed at lines 226 and
259-260. -/
def ceilDivNat (a b : Nat) : Nat := (a + b - 1) / b

/-- The external machine-learning collaborators of the engine, abstracted as
oracles.  `splitsFn n_splits n_repeats g` models the lazy split sequence of
`RepeatedGroupKFold(n_splits, n_repeats).split(g, groups=g)` (external package
`sklearn_repeated_group_k_fold`); `predictFn objective task x_trn y_trn g_trn
x_tst` models `RandomizedSearchCV(...).fit(x_trn, y_trn, groups=g_trn)`
followed by `search.best_estimator_.predict(x_tst)` (lines 262-282). -/
structure MLEnv where
  splitsFn : Nat → Nat → Frame → List (List Nat × List Nat)
  predictFn : String → Task → Frame → Frame → Frame → Frame → List ℚ

/-- Modelled from the spec: the external `RepeatedGroupKFold` splitter
(package `sklearn_repeated_group_k_fold`, whose source is not part of this
repository) produces `n_splits × n_repeats` train/test splits in total
(spec §4.1: "Total number of splits produced = `k × r`"). -/
def repeatedGroupKFoldCount (nSplits nRepeats : Nat) : Nat := nSplits * nRepeats

/-- `np.mean` of a list of rationals. -/
def listMean (l : List ℚ) : ℚ := l.sum / (l.length : ℚ)

/-- Residual sum of squares of sklearn's `r2_score`. -/
def ssRes (ytrue ypred : List ℚ) : ℚ :=
  ((ytrue.zip ypred).map (fun p => (p.1 - p.2) ^ 2)).sum

/-- Total sum of squares of sklearn's `r2_score`. -/
def ssTot (ytrue : List ℚ) : ℚ :=
  (ytrue.map (fun v => (v - listMean ytrue) ^ 2)).sum

/-- sklearn `r2_score`: `1 - ssRes/ssTot`; with a constant `y_true`
(zero denominator) sklearn returns `1.0` for a perfect fit and `0.0`
otherwise. -/
def r2Score (ytrue ypred : List ℚ) : ℚ :=
  if ssTot ytrue = 0 then (if ssRes ytrue ypred = 0 then 1 else 0)
  else 1 - ssRes ytrue ypred / ssTot ytrue

/-- The distinct values of a list in order of first appearance, as used by
`pd.factorize` for its `uniques`. -/
def uniquesFirst (l : List ℚ) : List ℚ :=
  l.foldl (fun acc v => if v ∈ acc then acc else acc ++ [v]) []

/-- `pd.factorize(s)[0]`: integer codes by order of first appearance,
re-embedded into the numeric column type. -/
def factorizeList (l : List ℚ) : List ℚ :=
  l.map (fun v => (((uniquesFirst l).findIdx (fun w => decide (w = v)) : Nat) : ℚ))

/-- The recall of each class present in `y_true` (sklearn's `per_class` inside
`balanced_accuracy_score`; classes absent from `y_true` have no defined recall
and are dropped there, so only classes of `y_true` appear). -/
def perClassRecall (ytrue ypred : List ℚ) : List ℚ :=
  (uniquesFirst ytrue).map (fun c =>
    (((ytrue.zip ypred).countP (fun p => decide (p.1 = c ∧ p.2 = c)) : Nat) : ℚ) /
      (((ytrue.countP (fun v => decide (v = c)) : Nat) : ℚ)))

/-- sklearn `balanced_accuracy_score(y_true, y_pred, adjusted=True)`:
mean per-class recall, rescaled so that chance level `1/n_classes` maps to 0
and perfect performance maps to 1. -/
def balancedAccuracyAdjusted (ytrue ypred : List ℚ) : ℚ :=
  (listMean (perClassRecall ytrue ypred) -
      1 / ((perClassRecall ytrue ypred).length : ℚ)) /
    (1 - 1 / ((perClassRecall ytrue ypred).length : ℚ))

/-- Scorer-name selection for the inner random search (lines 243-255). -/
def getScorer (objective : String) : Except String String :=
  if objective = "regression" then Except.ok "r2"
  else if objective = "binary" ∨ objective = "multiclass" then
    Except.ok "balanced_accuracy"
  else Except.error "OBJECTIVE not found."

/-- Outer-fold scoring (lines 284-297): R² for regression, adjusted balanced
accuracy for binary/multiclass, `ValueError` otherwise.  The metric is a
function of the objective alone — the signature has no metric parameter. -/
def foldScore (objective : String) (ytst ypred : List ℚ) : Except String ℚ :=
  if objective = "regression" then Except.ok (r2Score ytst ypred)
  else if objective = "binary" ∨ objective = "multiclass" then
    Except.ok (balancedAccuracyAdjusted ytst ypred)
  else Except.error "OBJECTIVE not found."

/-- A raised pandas `IndexError` propagates as an exception. -/
def liftOption {α : Type} : Option α → Except String α
  | some a => Except.ok a
  | none => Except.error "positional indexers are out-of-bounds"

/-- One iteration of the outer cross-validation loop of `compute_redundancy`
(lines 233-297): slice groups, targets and predictors, select the inner
scorer, insert the inner repeat count into the task dictionary, run the inner
random search and predict (oracle), and append the outer-fold score. -/
def outerFoldStep (env : MLEnv) (objective : String) (g x y : Frame)
    (acc : List ℚ × Task) (split : List Nat × List Nat) :
    Except String (List ℚ × Task) := do
  let gts ← liftOption (split_data g split.1 split.2)
  let yts ← liftOption (split_data y split.1 split.2)
  let xts ← liftOption (split_data x split.1 split.2)
  let _scorer ← getScorer objective
  let task := { acc.2 with
    n_rep_inner_cv := some (ceilDivNat acc.2.N_PRED_INNER_CV gts.1.vals.length) }
  let y_pred := env.predictFn objective task xts.1 yts.1 gts.1 xts.2
  let score ← foldScore objective yts.2.vals y_pred
  Except.ok (acc.1 ++ [score], task)

/-- The outer cross-validation loop of `compute_redundancy` (lines 224-297):
insert the outer repeat count into the task dictionary, instantiate the outer
splitter with `N_CV_FOLDS` folds and that repeat count, and fold over its
splits collecting the per-fold scores. -/
def redundancyFoldScores (env : MLEnv) (task : Task) (g x y : Frame)
    (objective : String) : Except String (List ℚ × Task) :=
  let task1 := { task with
    n_rep_outer_cv := some (ceilDivNat task.N_PRED_OUTER_CV g.vals.length) }
  let splits := env.splitsFn task1.N_CV_FOLDS
    (ceilDivNat task.N_PRED_OUTER_CV g.vals.length) g
  List.foldlM (outerFoldStep env objective g x y) ([], task1) splits

/-- `compute_redundancy` (iml_1_eda.py, lines 194-304): prepare the estimator,
run the outer cross-validation loop, and return `max(0, mean(scores))`
together with the task dictionary as left behind by the in-place updates. -/
def compute_redundancy (env : MLEnv) (task : Task) (g x y : Frame)
    (objective : String) : Except String (ℚ × Task) := do
  let _es ← prepare objective
  let st ← redundancyFoldScores env task g x y objective
  Except.ok (max 0 (listMean st.1), st.2)

/-- Entry `(i, j)` of the redundancy matrix, default `0` out of range. -/
def matGet (m : List (List ℚ)) (i j : Nat) : ℚ := (m.getD i []).getD j 0

/-- In-place cell write `redundancy[i, j] = v` (line 682). -/
def matSet (m : List (List ℚ)) (i j : Nat) (v : ℚ) : List (List ℚ) :=
  m.set i ((m.getD i []).set j v)

/-- Name of column `j` of the combined predictor+target table `z`. -/
def colName (z : List (String × List ℚ)) (j : Nat) : String := (z.getD j ("", [])).1

/-- Values of column `j` of the combined predictor+target table `z`. -/
def colVals (z : List (String × List ℚ)) (j : Nat) : List ℚ := (z.getD j ("", [])).2

/-- The ordered pairs of distinct column positions in the order produced by
`itertools.permutations(range(n), 2)` (line 633). -/
def pairsList (n : Nat) : List (Nat × Nat) :=
  (List.range n).flatMap (fun i =>
    ((List.range n).filter (fun j => decide (j ≠ i))).map (fun j => (i, j)))

/-- Objective and target-data selection for a prediction-target column, by
membership tests against the four role lists in source order (lines 636-680):
continuous → regression on raw values; binary-categorical → binary on
integer-factorized labels; multi-categorical → regression on raw values;
designated target → the task objective, raw if that objective is regression
and factorized otherwise; no match → `ValueError('OBJECTIVE not found.')`. -/
def selectObjectiveTarget (task : Task) (colJ : List ℚ) (nameJ : String) :
    Except String (String × List ℚ) :=
  if nameJ ∈ task.X_CON_NAMES then Except.ok ("regression", colJ)
  else if nameJ ∈ task.X_CAT_BIN_NAMES then Except.ok ("binary", factorizeList colJ)
  else if nameJ ∈ task.X_CAT_MULT_NAMES then Except.ok ("regression", colJ)
  else if nameJ ∈ task.Y_NAMES then
    (if task.OBJECTIVE = "regression" then Except.ok (task.OBJECTIVE, colJ)
     else Except.ok (task.OBJECTIVE, factorizeList colJ))
  else Except.error "OBJECTIVE not found."

/-- One pair of the redundancy fill loop (lines 633-683): dispatch the target
column, compute the pair's redundancy, and write the cell
`redundancy[i, j]`. -/
def buildStep (env : MLEnv) (g : Frame) (z : List (String × List ℚ))
    (acc : List (List ℚ) × Task) (p : Nat × Nat) :
    Except String (List (List ℚ) × Task) := do
  let ot ← selectObjectiveTarget acc.2 (colVals z p.2) (colName z p.2)
  let st ← compute_redundancy env acc.2 g (Frame.ofVals (colVals z p.1))
    (Frame.ofVals ot.2) ot.1
  Except.ok (matSet acc.1 p.1 p.2 st.1, st.2)

/-- The redundancy-matrix block of `eda` (iml_1_eda.py, lines 629-683): an
all-ones `n × n` matrix is allocated (line 631), then every ordered pair of
distinct column positions is filled pair by pair; a failed pair aborts the
whole build. -/
def eda_redundancy_matrix (env : MLEnv) (task : Task) (g : Frame)
    (z : List (String × List ℚ)) : Except String (List (List ℚ) × Task) :=
  List.foldlM (buildStep env g z)
    (List.replicate z.length (List.replicate z.length 1), task) (pairsList z.length)

/-! ### Generic lemmas about `Except`-valued folds -/

/-- An invariant preserved by every successful step of an `Except` fold is
preserved by a successful fold. -/
theorem foldlM_ok_invariant {ε σ α : Type} (step : σ → α → Except ε σ)
    (P : σ → Prop) (A : α → Prop) :
    ∀ (l : List α), (∀ a ∈ l, A a) →
      (∀ s a s', A a → step s a = Except.ok s' → P s → P s') →
      ∀ s s', List.foldlM step s l = Except.ok s' → P s → P s' := by
  intro l
  induction l with
  | nil =>
    intro _ _ s s' h hP
    simp only [List.foldlM_nil] at h
    cases h
    exact hP
  | cons a l ih =>
    intro hA hstep s s' h hP
    simp only [List.foldlM_cons] at h
    cases hs : step s a with
    | error e => rw [hs] at h; simp [bind, Except.bind] at h
    | ok s1 =>
      rw [hs] at h
      simp only [bind, Except.bind] at h
      exact ih (fun b hb => hA b (List.mem_cons_of_mem a hb)) hstep s1 s' h
        (hstep s a s1 (hA a (List.mem_cons_self a l)) hs hP)

/-- If an `Except` fold succeeds, then every list element was processed by a
successful step starting from a state satisfying any invariant preserved by
successful steps. -/
theorem foldlM_ok_step_exists {ε σ α : Type} (step : σ → α → Except ε σ)
    (P : σ → Prop)
    (hstep : ∀ s a s', step s a = Except.ok s' → P s → P s') :
    ∀ (l : List α) (s s' : σ), List.foldlM step s l = Except.ok s' → P s →
      ∀ a ∈ l, ∃ t t', P t ∧ step t a = Except.ok t' := by
  intro l
  induction l with
  | nil => intro s s' _ _ a ha; cases ha
  | cons b l ih =>
    intro s s' h hP a ha
    simp only [List.foldlM_cons] at h
    cases hs : step s b with
    | error e => rw [hs] at h; simp [bind, Except.bind] at h
    | ok s1 =>
      rw [hs] at h
      simp only [bind, Except.bind] at h
      rcases List.mem_cons.mp ha with rfl | hmem
      · exact ⟨s, s1, hP, hs⟩
      · exact ih s1 s' h (hstep s b s1 hs hP) a hmem

/-! ### Inversion lemmas for the engine's steps -/

/-- Inversion of one successful outer-CV iteration: the three slicings and the
scorer selection succeeded, the inner repeat count was inserted from the outer
train partition's row count, and the fold score was appended. -/
theorem outerFoldStep_ok (env : MLEnv) (objective : String) (g x y : Frame)
    (acc : List ℚ × Task) (split : List Nat × List Nat) (out : List ℚ × Task)
    (h : outerFoldStep env objective g x y acc split = Except.ok out) :
    ∃ gts yts xts scorer sc,
      split_data g split.1 split.2 = some gts ∧
      split_data y split.1 split.2 = some yts ∧
      split_data x split.1 split.2 = some xts ∧
      getScorer objective = Except.ok scorer ∧
      foldScore objective yts.2.vals
        (env.predictFn objective
          { acc.2 with
            n_rep_inner_cv := some (ceilDivNat acc.2.N_PRED_INNER_CV gts.1.vals.length) }
          xts.1 yts.1 gts.1 xts.2) = Except.ok sc ∧
      out = (acc.1 ++ [sc],
        { acc.2 with
          n_rep_inner_cv := some (ceilDivNat acc.2.N_PRED_INNER_CV gts.1.vals.length) }) := by
  unfold outerFoldStep at h
  cases hg : split_data g split.1 split.2 with
  | none => rw [hg] at h; simp [liftOption, bind, Except.bind] at h
  | some gts =>
    rw [hg] at h
    cases hy : split_data y split.1 split.2 with
    | none => rw [hy] at h; simp [liftOption, bind, Except.bind] at h
    | some yts =>
      rw [hy] at h
      cases hx : split_data x split.1 split.2 with
      | none => rw [hx] at h; simp [liftOption, bind, Except.bind] at h
      | some xts =>
        rw [hx] at h
        cases hsc : getScorer objective with
        | error e =>
          rw [hsc] at h; simp [liftOption, bind, Except.bind] at h
        | ok scorer =>
          rw [hsc] at h
          simp only [liftOption, bind, Except.bind] at h
          cases hfs : foldScore objective yts.2.vals
              (env.predictFn objective
                { acc.2 with
                  n_rep_inner_cv := some (ceilDivNat acc.2.N_PRED_INNER_CV gts.1.vals.length) }
                xts.1 yts.1 gts.1 xts.2) with
          | error e => rw [hfs] at h; simp at h
          | ok sc =>
            rw [hfs] at h
            simp only [Except.ok.injEq] at h
            exact ⟨gts, yts, xts, scorer, sc, rfl, rfl, rfl, rfl, hfs, h.symm⟩

/-- Inversion of a successful `compute_redundancy` call: the estimator was
prepared, the outer loop collected its scores, and the returned value is the
zero-floored mean of those scores. -/
theorem compute_redundancy_ok (env : MLEnv) (task : Task) (g x y : Frame)
    (objective : String) (out : ℚ × Task)
    (h : compute_redundancy env task g x y objective = Except.ok out) :
    ∃ es st, prepare objective = Except.ok es ∧
      redundancyFoldScores env task g x y objective = Except.ok st ∧
      out = (max 0 (listMean st.1), st.2) := by
  unfold compute_redundancy at h
  cases hp : prepare objective with
  | error e => rw [hp] at h; simp [bind, Except.bind] at h
  | ok es =>
    rw [hp] at h
    cases hs : redundancyFoldScores env task g x y objective with
    | error e => rw [hs] at h; simp [bind, Except.bind] at h
    | ok st =>
      rw [hs] at h
      simp only [bind, Except.bind, Except.ok.injEq] at h
      exact ⟨es, st, rfl, rfl, h.symm⟩

/-- Inversion of one successful pair of the matrix fill loop. -/
theorem buildStep_ok (env : MLEnv) (g : Frame) (z : List (String × List ℚ))
    (acc : List (List ℚ) × Task) (p : Nat × Nat) (out : List (List ℚ) × Task)
    (h : buildStep env g z acc p = Except.ok out) :
    ∃ ot st,
      selectObjectiveTarget acc.2 (colVals z p.2) (colName z p.2) = Except.ok ot ∧
      compute_redundancy env acc.2 g (Frame.ofVals (colVals z p.1))
        (Frame.ofVals ot.2) ot.1 = Except.ok st ∧
      out = (matSet acc.1 p.1 p.2 st.1, st.2) := by
  unfold buildStep at h
  cases hsel : selectObjectiveTarget acc.2 (colVals z p.2) (colName z p.2) with
  | error e => rw [hsel] at h; simp [bind, Except.bind] at h
  | ok ot =>
    rw [hsel] at h
    simp only [bind, Except.bind] at h
    cases hcr : compute_redundancy env acc.2 g (Frame.ofVals (colVals z p.1))
        (Frame.ofVals ot.2) ot.1 with
    | error e => rw [hcr] at h; simp [bind, Except.bind] at h
    | ok st =>
      rw [hcr] at h
      simp only [bind, Except.bind, Except.ok.injEq] at h
      exact ⟨ot, st, rfl, hcr, h.symm⟩

/-- A successful dispatch means the target column's name matched one of the
four role lists. -/
theorem selectObjectiveTarget_ok_role (task : Task) (colJ : List ℚ)
    (nameJ : String) (ot : String × List ℚ)
    (h : selectObjectiveTarget task colJ nameJ = Except.ok ot) :
    nameJ ∈ task.X_CON_NAMES ∨ nameJ ∈ task.X_CAT_BIN_NAMES ∨
      nameJ ∈ task.X_CAT_MULT_NAMES ∨ nameJ ∈ task.Y_NAMES := by
  unfold selectObjectiveTarget at h
  split_ifs at h with h1 h2 h3 h4 h5 <;> tauto

/-- `compute_redundancy` returns the task it was given up to the two derived
repeat-count entries: the whole dictionary shape is
`{ task with n_rep_outer_cv := o, n_rep_inner_cv := i }` for some `o`, `i`. -/
theorem compute_redundancy_task_shape (env : MLEnv) (task : Task) (g x y : Frame)
    (objective : String) (r : ℚ) (t' : Task)
    (h : compute_redundancy env task g x y objective = Except.ok (r, t')) :
    ∃ (o i : Option Nat),
      t' = { task with n_rep_outer_cv := o, n_rep_inner_cv := i } := by
  obtain ⟨es, st, _, hs, hout⟩ := compute_redundancy_ok env task g x y objective _ h
  have ht' : t' = st.2 := congrArg Prod.snd hout
  subst ht'
  unfold redundancyFoldScores at hs
  have hP := foldlM_ok_invariant (outerFoldStep env objective g x y)
    (fun s => ∃ (o i : Option Nat),
      s.2 = { task with n_rep_outer_cv := o, n_rep_inner_cv := i })
    (fun _ => True) _ (fun _ _ => trivial)
    (fun s a s' _ hstep hPs => by
      obtain ⟨gts, yts, xts, scorer, sc, _, _, _, _, _, hout'⟩ :=
        outerFoldStep_ok env objective g x y s a s' hstep
      obtain ⟨o, i, hs2⟩ := hPs
      refine ⟨o, some (ceilDivNat s.2.N_PRED_INNER_CV gts.1.vals.length), ?_⟩
      rw [hout']
      rw [hs2])
    _ _ hs
    ⟨some (ceilDivNat task.N_PRED_OUTER_CV g.vals.length),
      task.n_rep_inner_cv, rfl⟩
  exact hP

/-! ### Bounds on the two scoring metrics -/

/-- The mean of a list of values each at most 1 is at most 1 (the empty mean
is the embedding's `0/0 = 0`). -/
theorem listMean_le_one {l : List ℚ} (h : ∀ s ∈ l, s ≤ 1) : listMean l ≤ 1 := by
  rcases l with _ | ⟨a, l⟩
  · simp [listMean]
  · have hlen : (0 : ℚ) < (((a :: l).length : Nat) : ℚ) := by
      exact_mod_cast List.length_pos.mpr (List.cons_ne_nil a l)
    rw [listMean, div_le_one hlen]
    calc (a :: l).sum ≤ (a :: l).length • (1 : ℚ) := List.sum_le_card_nsmul _ _ h
    _ = (((a :: l).length : Nat) : ℚ) := by simp

/-- R² is at most 1 for every prediction vector. -/
theorem r2Score_le_one (ytrue ypred : List ℚ) : r2Score ytrue ypred ≤ 1 := by
  have hres : 0 ≤ ssRes ytrue ypred := by
    apply List.sum_nonneg
    intro v hv
    rcases List.mem_map.mp hv with ⟨p, _, rfl⟩
    positivity
  have htot : 0 ≤ ssTot ytrue := by
    apply List.sum_nonneg
    intro v hv
    rcases List.mem_map.mp hv with ⟨w, _, rfl⟩
    positivity
  unfold r2Score
  split_ifs with h1 h2
  · exact le_refl 1
  · norm_num
  · have : 0 ≤ ssRes ytrue ypred / ssTot ytrue := div_nonneg hres htot
    linarith

/-- Any value of `uniquesFirst` occurs in the original list. -/
theorem mem_of_mem_uniquesFirst {l : List ℚ} {x : ℚ} (h : x ∈ uniquesFirst l) :
    x ∈ l := by
  have aux : ∀ (l acc : List ℚ) (x : ℚ),
      x ∈ l.foldl (fun acc v => if v ∈ acc then acc else acc ++ [v]) acc →
        x ∈ acc ∨ x ∈ l := by
    intro l
    induction l with
    | nil => intro acc x hx; exact Or.inl hx
    | cons a l ih =>
      intro acc x hx
      simp only [List.foldl_cons] at hx
      by_cases ha : a ∈ acc
      · rw [if_pos ha] at hx
        rcases ih _ x hx with h1 | h1
        · exact Or.inl h1
        · exact Or.inr (List.mem_cons_of_mem _ h1)
      · rw [if_neg ha] at hx
        rcases ih _ x hx with h1 | h1
        · rcases List.mem_append.mp h1 with h2 | h2
          · exact Or.inl h2
          · simp only [List.mem_singleton] at h2
            subst h2
            exact Or.inr (List.mem_cons_self _ _)
        · exact Or.inr (List.mem_cons_of_mem _ h1)
  rcases aux l [] x h with h1 | h1
  · cases h1
  · exact h1

/-- True-positive count of a class is at most its support in `y_true`. -/
theorem countP_zip_le (l1 l2 : List ℚ) (c : ℚ) :
    (l1.zip l2).countP (fun p => decide (p.1 = c ∧ p.2 = c)) ≤
      l1.countP (fun v => decide (v = c)) := by
  induction l1 generalizing l2 with
  | nil => simp
  | cons a l ih =>
    cases l2 with
    | nil => simp
    | cons b l2 =>
      simp only [List.zip_cons_cons, List.countP_cons]
      have h := ih l2
      simp only [Bool.decide_and] at h
      by_cases hac : a = c
      · by_cases hbc : b = c
        · simp [hac, hbc]
          omega
        · simp [hac, hbc]
          omega
      · simp [hac]
        omega

/-- Every per-class recall is at most 1. -/
theorem perClassRecall_le_one (ytrue ypred : List ℚ) :
    ∀ r ∈ perClassRecall ytrue ypred, r ≤ 1 := by
  intro r hr
  rcases List.mem_map.mp hr with ⟨c, hc, rfl⟩
  have hmem : c ∈ ytrue := mem_of_mem_uniquesFirst hc
  have hsup : 0 < ytrue.countP (fun v => decide (v = c)) :=
    List.countP_pos_iff.mpr ⟨c, hmem, by simp⟩
  have hpos : (0 : ℚ) < ((ytrue.countP (fun v => decide (v = c)) : Nat) : ℚ) := by
    exact_mod_cast hsup
  rw [div_le_one hpos]
  exact_mod_cast countP_zip_le ytrue ypred c

/-- The chance-adjusted balanced accuracy is at most 1. -/
theorem balancedAccuracyAdjusted_le_one (ytrue ypred : List ℚ) :
    balancedAccuracyAdjusted ytrue ypred ≤ 1 := by
  have hmean : listMean (perClassRecall ytrue ypred) ≤ 1 :=
    listMean_le_one (perClassRecall_le_one ytrue ypred)
  unfold balancedAccuracyAdjusted
  rcases hlen : (perClassRecall ytrue ypred).length with _ | n
  · have hnil : perClassRecall ytrue ypred = [] := List.length_eq_zero.mp hlen
    rw [hnil]
    simp [listMean]
  · rcases n with _ | m
    · norm_num
    · have h2 : (2 : ℚ) ≤ ((m + 1 + 1 : Nat) : ℚ) := by
        push_cast
        linarith
      have hpos : (0 : ℚ) < ((m + 1 + 1 : Nat) : ℚ) := by linarith
      have hfrac : 1 / ((m + 1 + 1 : Nat) : ℚ) < 1 := by
        rw [div_lt_one hpos]
        linarith
      have hd : (0 : ℚ) < 1 - 1 / ((m + 1 + 1 : Nat) : ℚ) := by linarith
      rw [div_le_one hd]
      linarith

/-- Every score produced by the outer-fold scoring step is at most 1. -/
theorem foldScore_le_one (objective : String) (ytst ypred : List ℚ) (s : ℚ)
    (h : foldScore objective ytst ypred = Except.ok s) : s ≤ 1 := by
  unfold foldScore at h
  split_ifs at h
  · cases h
    exact r2Score_le_one _ _
  · cases h
    exact balancedAccuracyAdjusted_le_one _ _

/-- All scores collected by the outer cross-validation loop are at most 1. -/
theorem redundancyFoldScores_le_one (env : MLEnv) (task : Task) (g x y : Frame)
    (objective : String) (scores : List ℚ) (t' : Task)
    (h : redundancyFoldScores env task g x y objective = Except.ok (scores, t')) :
    ∀ s ∈ scores, s ≤ 1 := by
  unfold redundancyFoldScores at h
  exact foldlM_ok_invariant (outerFoldStep env objective g x y)
    (fun st => ∀ s ∈ st.1, s ≤ 1) (fun _ => True) _ (fun _ _ => trivial)
    (fun st a st' _ hstep hP => by
      obtain ⟨gts, yts, xts, scorer, sc, _, _, _, _, hfs, hout⟩ :=
        outerFoldStep_ok env objective g x y st a st' hstep
      intro s hsmem
      rw [hout] at hsmem
      rcases List.mem_append.mp hsmem with hmem | hmem
      · exact hP s hmem
      · simp only [List.mem_singleton] at hmem
        subst hmem
        exact foldScore_le_one objective _ _ s hfs)
    _ _ h (by intro s hs; cases hs)

/-- The score returned by `compute_redundancy` lies in the unit interval. -/
theorem compute_redundancy_score_bounds (env : MLEnv) (task : Task)
    (g x y : Frame) (objective : String) (r : ℚ) (t' : Task)
    (h : compute_redundancy env task g x y objective = Except.ok (r, t')) :
    0 ≤ r ∧ r ≤ 1 := by
  obtain ⟨es, st, hp, hs, hout⟩ := compute_redundancy_ok env task g x y objective _ h
  have hr : r = max 0 (listMean st.1) := congrArg Prod.fst hout
  have hle : listMean st.1 ≤ 1 :=
    listMean_le_one (redundancyFoldScores_le_one env task g x y objective st.1 st.2
      (by rw [← hs]))
  constructor
  · rw [hr]; exact le_max_left 0 _
  · rw [hr]; exact max_le (by norm_num) hle

/-! ### List and matrix access lemmas -/

/-- Writing one position leaves every other position unchanged. -/
theorem list_getD_set_ne {α : Type} (l : List α) (i j : Nat) (a d : α)
    (hij : i ≠ j) : (l.set i a).getD j d = l.getD j d := by
  induction l generalizing i j with
  | nil => simp
  | cons b l ih =>
    cases i with
    | zero =>
      cases j with
      | zero => exact absurd rfl hij
      | succ j => simp [List.set]
    | succ i =>
      cases j with
      | zero => simp [List.set]
      | succ j =>
        simp only [List.set, List.getD_cons_succ]
        exact ih i j (fun hh => hij (by rw [hh]))

/-- Writing a position within range is observable there. -/
theorem list_getD_set_self {α : Type} (l : List α) (i : Nat) (a d : α)
    (h : i < l.length) : (l.set i a).getD i d = a := by
  induction l generalizing i with
  | nil => cases h
  | cons b l ih =>
    cases i with
    | zero => simp [List.set]
    | succ i =>
      simp only [List.set, List.getD_cons_succ]
      exact ih i (Nat.lt_of_succ_lt_succ h)

/-- Writing past the end of a list changes nothing. -/
theorem list_set_of_length_le {α : Type} (l : List α) (i : Nat) (a : α)
    (h : l.length ≤ i) : l.set i a = l :=
  List.set_eq_of_length_le h

/-- Positions of a replicated list read back the replicated value. -/
theorem list_getD_replicate {α : Type} (n i : Nat) (a d : α) (h : i < n) :
    (List.replicate n a).getD i d = a := by
  induction n generalizing i with
  | zero => cases h
  | succ n ih =>
    cases i with
    | zero => simp [List.replicate]
    | succ i =>
      simp only [List.replicate, List.getD_cons_succ]
      exact ih i (Nat.lt_of_succ_lt_succ h)

/-- A cell write does not touch other rows. -/
theorem matGet_matSet_ne_row (m : List (List ℚ)) (i j : Nat) (v : ℚ)
    (i' j' : Nat) (h : i' ≠ i) :
    matGet (matSet m i j v) i' j' = matGet m i' j' := by
  unfold matGet matSet
  rw [list_getD_set_ne _ _ _ _ _ (Ne.symm h)]

/-- After a cell write, every cell holds either the written value or its old
value. -/
theorem matGet_matSet_cases (m : List (List ℚ)) (i j : Nat) (v : ℚ)
    (i' j' : Nat) :
    matGet (matSet m i j v) i' j' = v ∨
      matGet (matSet m i j v) i' j' = matGet m i' j' := by
  by_cases hi : i' = i
  · subst hi
    by_cases hlen : i' < m.length
    · unfold matGet matSet
      rw [list_getD_set_self _ _ _ _ hlen]
      by_cases hj : j' = j
      · subst hj
        by_cases hjl : j' < (m.getD i' []).length
        · exact Or.inl (list_getD_set_self _ _ _ _ hjl)
        · right
          rw [list_set_of_length_le _ _ _ (Nat.le_of_not_lt hjl)]
      · right
        rw [list_getD_set_ne _ _ _ _ _ (fun hh => hj hh.symm)]
    · right
      unfold matGet matSet
      rw [list_set_of_length_le _ _ _ (Nat.le_of_not_lt hlen)]
  · exact Or.inr (matGet_matSet_ne_row m i j v i' j' hi)

/-- An off-diagonal cell write never changes a diagonal cell. -/
theorem matGet_matSet_diag (m : List (List ℚ)) (i j : Nat) (v : ℚ) (k : Nat)
    (hij : i ≠ j) : matGet (matSet m i j v) k k = matGet m k k := by
  by_cases hk : k = i
  · subst hk
    by_cases hlen : k < m.length
    · unfold matGet matSet
      rw [list_getD_set_self _ _ _ _ hlen]
      rw [list_getD_set_ne _ _ _ _ _ (fun hh => hij hh.symm)]
    · unfold matGet matSet
      rw [list_set_of_length_le _ _ _ (Nat.le_of_not_lt hlen)]
  · exact matGet_matSet_ne_row m i j v k k hk

/-! ### The pair enumeration -/

/-- Every enumerated pair consists of two distinct in-range positions. -/
theorem pairsList_mem (n : Nat) :
    ∀ p ∈ pairsList n, p.1 < n ∧ p.2 < n ∧ p.1 ≠ p.2 := by
  intro p hp
  unfold pairsList at hp
  rcases List.mem_flatMap.mp hp with ⟨i, hi, hmem⟩
  rcases List.mem_map.mp hmem with ⟨j, hj, rfl⟩
  rcases List.mem_filter.mp hj with ⟨hjr, hjne⟩
  refine ⟨List.mem_range.mp hi, List.mem_range.mp hjr, ?_⟩
  intro hh
  exact (of_decide_eq_true hjne) hh.symm

/-- Every ordered pair of distinct in-range positions is enumerated. -/
theorem mem_pairsList (n i j : Nat) (hi : i < n) (hj : j < n) (hij : i ≠ j) :
    (i, j) ∈ pairsList n := by
  unfold pairsList
  refine List.mem_flatMap.mpr ⟨i, List.mem_range.mpr hi, ?_⟩
  refine List.mem_map.mpr ⟨j, ?_, rfl⟩
  refine List.mem_filter.mpr ⟨List.mem_range.mpr hj, ?_⟩
  exact decide_eq_true (fun hh => hij hh.symm)

/-! ### The claims -/

/-- C1: for every task, group vector, predictor column, target column and
supported objective (one accepted by `prepare`), the redundancy score returned
by `compute_redundancy` is exactly `max(0, mean(per-outer-fold scores))`: the
mean of the score list collected by the outer CV loop, floored at zero
(iml_1_eda.py, lines 299-304). -/
theorem C1_redundancy_eq_floored_mean (env : MLEnv) (task : Task) (g x y : Frame)
    (objective : String) (es : EstimatorCfg × SearchSpace) (scores : List ℚ)
    (t' : Task)
    (hp : prepare objective = Except.ok es)
    (hs : redundancyFoldScores env task g x y objective = Except.ok (scores, t')) :
    compute_redundancy env task g x y objective =
      Except.ok (max 0 (listMean scores), t') := by
  unfold compute_redundancy
  rw [hp]
  simp only [bind, Except.bind]
  rw [hs]

/-- C3: for an ordered pair of distinct columns, the matrix builder chooses
objective and target encoding solely from the role of the predicted column
(iml_1_eda.py, lines 636-680): continuous → regression on raw values;
binary-categorical → binary on factorized labels; multi-categorical →
regression (not classification) on raw values; designated target → the task's
configured objective, raw for regression and factorized otherwise.  Each case
assumes the column carries exactly that one role, per the data model's
role-exclusivity invariant. -/
theorem C3_objective_dispatch_by_role (task : Task) (colJ : List ℚ)
    (nameJ : String) :
    ((nameJ ∈ task.X_CON_NAMES ∧ nameJ ∉ task.X_CAT_BIN_NAMES ∧
        nameJ ∉ task.X_CAT_MULT_NAMES ∧ nameJ ∉ task.Y_NAMES) →
      selectObjectiveTarget task colJ nameJ = Except.ok ("regression", colJ)) ∧
    ((nameJ ∉ task.X_CON_NAMES ∧ nameJ ∈ task.X_CAT_BIN_NAMES ∧
        nameJ ∉ task.X_CAT_MULT_NAMES ∧ nameJ ∉ task.Y_NAMES) →
      selectObjectiveTarget task colJ nameJ =
        Except.ok ("binary", factorizeList colJ)) ∧
    ((nameJ ∉ task.X_CON_NAMES ∧ nameJ ∉ task.X_CAT_BIN_NAMES ∧
        nameJ ∈ task.X_CAT_MULT_NAMES ∧ nameJ ∉ task.Y_NAMES) →
      selectObjectiveTarget task colJ nameJ = Except.ok ("regression", colJ)) ∧
    ((nameJ ∉ task.X_CON_NAMES ∧ nameJ ∉ task.X_CAT_BIN_NAMES ∧
        nameJ ∉ task.X_CAT_MULT_NAMES ∧ nameJ ∈ task.Y_NAMES) →
      selectObjectiveTarget task colJ nameJ =
        Except.ok (task.OBJECTIVE,
          if task.OBJECTIVE = "regression" then colJ else factorizeList colJ)) := by
  refine ⟨?_, ?_, ?_, ?_⟩
  · rintro ⟨hc, _, _, _⟩
    simp [selectObjectiveTarget, hc]
  · rintro ⟨hc, hb, _, _⟩
    simp [selectObjectiveTarget, hc, hb]
  · rintro ⟨hc, hb, hm, _⟩
    simp [selectObjectiveTarget, hc, hb, hm]
  · rintro ⟨hc, hb, hm, hy⟩
    by_cases hobj : task.OBJECTIVE = "regression"
    · simp [selectObjectiveTarget, hc, hb, hm, hy, hobj]
    · simp [selectObjectiveTarget, hc, hb, hm, hy, hobj]

/-- C4: for every objective outside `{regression, binary, multiclass}`, the
estimator factory `prepare` fails with the unsupported-objective error and
constructs no estimator (the `Except` carries no value), and
`compute_redundancy` propagates the same error, returning no score
(iml_1_eda.py, lines 140-143 and 218-222). -/
theorem C4_unsupported_objective_error (objective : String) (env : MLEnv)
    (task : Task) (g x y : Frame)
    (h1 : objective ≠ "regression") (h2 : objective ≠ "binary")
    (h3 : objective ≠ "multiclass") :
    prepare objective = Except.error "OBJECTIVE not found." ∧
      compute_redundancy env task g x y objective =
        Except.error "OBJECTIVE not found." := by
  have hp : prepare objective = Except.error "OBJECTIVE not found." := by
    unfold prepare
    rw [if_neg h1, if_neg (by tauto)]
  refine ⟨hp, ?_⟩
  unfold compute_redundancy
  rw [hp]
  simp [bind, Except.bind]

/-- C7: the per-outer-fold score is the R² coefficient of determination when
the objective is regression, and balanced accuracy chance-adjusted to [0, 1]
when the objective is binary or multiclass (iml_1_eda.py, lines 284-297); the
metric is determined by the objective alone — `foldScore` takes no metric
argument, so it is not configurable per call. -/
theorem C7_metric_fixed_by_objective (objective : String) (ytst ypred : List ℚ)
    (s : ℚ) (h : foldScore objective ytst ypred = Except.ok s) :
    (objective = "regression" ∧ s = r2Score ytst ypred) ∨
      ((objective = "binary" ∨ objective = "multiclass") ∧
        s = balancedAccuracyAdjusted ytst ypred) := by
  unfold foldScore at h
  split_ifs at h with hr hc
  · cases h
    exact Or.inl ⟨hr, rfl⟩
  · cases h
    exact Or.inr ⟨hc, rfl⟩

/-- C10: `split_data` (iml_1_eda.py, lines 157-191) returns, for a non-empty
dataframe and in-range positional index arrays, the two row slices selected by
those indices with their row indices reset to `0..len-1`; for an empty
dataframe it returns two empty dataframes regardless of the supplied index
arrays. -/
theorem C10_split_data_slices (df : Frame) (i_trn i_tst : List Nat) :
    (df.vals ≠ [] → (∀ i ∈ i_trn, i < df.vals.length) →
      (∀ i ∈ i_tst, i < df.vals.length) →
      split_data df i_trn i_tst =
        some (⟨List.range i_trn.length, i_trn.map (fun i => df.vals.getD i 0)⟩,
              ⟨List.range i_tst.length, i_tst.map (fun i => df.vals.getD i 0)⟩)) ∧
    (df.vals = [] → split_data df i_trn i_tst = some (⟨[], []⟩, ⟨[], []⟩)) := by
  constructor
  · intro hne htrn htst
    have hnem : ¬ df.vals.isEmpty := by
      simpa [List.isEmpty_iff] using hne
    have ht : i_trn.all (fun i => decide (i < df.vals.length)) = true :=
      List.all_eq_true.mpr (fun i hi => decide_eq_true (htrn i hi))
    have hs : i_tst.all (fun i => decide (i < df.vals.length)) = true :=
      List.all_eq_true.mpr (fun i hi => decide_eq_true (htst i hi))
    simp [split_data, Frame.iloc, Frame.reset_index, hnem, ht, hs]
  · intro he
    simp [split_data, he]

/-- C9: the role-membership checks are applied in a fixed precedence order —
continuous, then binary-categorical, then multi-categorical, then designated
target (iml_1_eda.py, lines 638-676) — and a column appearing in several role
lists raises no error: it is silently dispatched by the first matching list,
so a column listed as both continuous and binary-categorical is always
predicted under the regression objective (first conjunct, which carries no
assumption about the later lists). -/
theorem C9_role_precedence (task : Task) (colJ : List ℚ) (nameJ : String) :
    (nameJ ∈ task.X_CON_NAMES →
      selectObjectiveTarget task colJ nameJ = Except.ok ("regression", colJ)) ∧
    (nameJ ∉ task.X_CON_NAMES → nameJ ∈ task.X_CAT_BIN_NAMES →
      selectObjectiveTarget task colJ nameJ =
        Except.ok ("binary", factorizeList colJ)) ∧
    (nameJ ∉ task.X_CON_NAMES → nameJ ∉ task.X_CAT_BIN_NAMES →
      nameJ ∈ task.X_CAT_MULT_NAMES →
      selectObjectiveTarget task colJ nameJ = Except.ok ("regression", colJ)) ∧
    (nameJ ∉ task.X_CON_NAMES → nameJ ∉ task.X_CAT_BIN_NAMES →
      nameJ ∉ task.X_CAT_MULT_NAMES → nameJ ∈ task.Y_NAMES →
      selectObjectiveTarget task colJ nameJ =
        Except.ok (task.OBJECTIVE,
          if task.OBJECTIVE = "regression" then colJ else factorizeList colJ)) := by
  refine ⟨?_, ?_, ?_, ?_⟩
  · intro hc
    simp [selectObjectiveTarget, hc]
  · intro hc hb
    simp [selectObjectiveTarget, hc, hb]
  · intro hc hb hm
    simp [selectObjectiveTarget, hc, hb, hm]
  · intro hc hb hm hy
    by_cases hobj : task.OBJECTIVE = "regression"
    · simp [selectObjectiveTarget, hc, hb, hm, hy, hobj]
    · simp [selectObjectiveTarget, hc, hb, hm, hy, hobj]

/-- C6: the outer repeat count inserted by `compute_redundancy` is
`ceil(N_PRED_OUTER_CV / n)` for group-vector row count `n` (line 226), the
outer splitter is configured to produce `N_CV_FOLDS × ceil(N_PRED_OUTER_CV/n)`
splits (lines 228-231, split count of `RepeatedGroupKFold` modelled from the
spec via `repeatedGroupKFoldCount`), and each outer iteration inserts the
inner repeat count `ceil(N_PRED_INNER_CV / n_train)` computed from the outer
train partition's row count (lines 259-260). -/
theorem C6_repeat_counts_and_split_count (env : MLEnv) (task : Task)
    (g x y : Frame) (objective : String) (r : ℚ) (t' : Task)
    (acc : List ℚ × Task) (sp : List Nat × List Nat) (out : List ℚ × Task)
    (gts : Frame × Frame)
    (hsp : ∀ k rep gg, (env.splitsFn k rep gg).length = repeatedGroupKFoldCount k rep)
    (h : compute_redundancy env task g x y objective = Except.ok (r, t'))
    (hstep : outerFoldStep env objective g x y acc sp = Except.ok out)
    (hsplit : split_data g sp.1 sp.2 = some gts) :
    t'.n_rep_outer_cv = some (ceilDivNat task.N_PRED_OUTER_CV g.vals.length) ∧
    (env.splitsFn task.N_CV_FOLDS
        (ceilDivNat task.N_PRED_OUTER_CV g.vals.length) g).length
      = task.N_CV_FOLDS * ceilDivNat task.N_PRED_OUTER_CV g.vals.length ∧
    out.2.n_rep_inner_cv =
      some (ceilDivNat acc.2.N_PRED_INNER_CV gts.1.vals.length) := by
  refine ⟨?_, hsp task.N_CV_FOLDS _ g, ?_⟩
  · obtain ⟨es, st, hp, hs, hout⟩ :=
      compute_redundancy_ok env task g x y objective _ h
    have ht' : t' = st.2 := congrArg Prod.snd hout
    subst ht'
    unfold redundancyFoldScores at hs
    exact foldlM_ok_invariant (outerFoldStep env objective g x y)
      (fun s => s.2.n_rep_outer_cv =
        some (ceilDivNat task.N_PRED_OUTER_CV g.vals.length))
      (fun _ => True) _ (fun _ _ => trivial)
      (fun s a s' _ hst hP => by
        obtain ⟨gts2, yts, xts, scorer, sc, _, _, _, _, _, ho⟩ :=
          outerFoldStep_ok env objective g x y s a s' hst
        rw [ho]
        exact hP)
      _ _ hs rfl
  · obtain ⟨gts2, yts, xts, scorer, sc, hg2, _, _, _, _, ho⟩ :=
      outerFoldStep_ok env objective g x y acc sp out hstep
    have hgg : gts2 = gts := by
      rw [hg2] at hsplit
      exact Option.some.inj hsplit
    subst hgg
    rw [ho]

/-- C8 (amended): `compute_redundancy` does mutate the task dictionary — it
inserts the derived repeat-count entries `n_rep_outer_cv` and `n_rep_inner_cv`
in place (lines 226 and 259-260) — but every configuration field (fold count,
prediction-count targets, search trials, parallelism, objective, and all four
role lists) is returned exactly as passed in, and there is no other side
effect beyond the returned scalar. -/
theorem C8_amended_task_mutation (env : MLEnv) (task : Task) (g x y : Frame)
    (objective : String) (r : ℚ) (t' : Task)
    (h : compute_redundancy env task g x y objective = Except.ok (r, t')) :
    t'.core = task.core := by
  obtain ⟨o, i, rfl⟩ :=
    compute_redundancy_task_shape env task g x y objective r t' h
  rfl

/-- All cells of the all-ones seed matrix read back 1 in range and the
out-of-range default 0 otherwise. -/
theorem matGet_ones (n a b : Nat) :
    matGet (List.replicate n (List.replicate n (1 : ℚ))) a b = 1 ∨
      matGet (List.replicate n (List.replicate n (1 : ℚ))) a b = 0 := by
  unfold matGet
  by_cases ha : a < n
  · rw [list_getD_replicate _ _ _ _ ha]
    by_cases hb : b < n
    · rw [list_getD_replicate _ _ _ _ hb]
      exact Or.inl rfl
    · rw [List.getD_eq_default]
      · exact Or.inr rfl
      · rw [List.length_replicate]
        exact Nat.le_of_not_lt hb
  · have hrow : (List.replicate n (List.replicate n (1 : ℚ))).getD a [] = [] :=
      List.getD_eq_default _ _ (by
        rw [List.length_replicate]
        exact Nat.le_of_not_lt ha)
    rw [hrow]
    exact Or.inr rfl

/-- In-range diagonal cells of the all-ones seed matrix read back 1. -/
theorem matGet_ones_diag (n a : Nat) (ha : a < n) :
    matGet (List.replicate n (List.replicate n (1 : ℚ))) a a = 1 := by
  unfold matGet
  rw [list_getD_replicate _ _ _ _ ha, list_getD_replicate _ _ _ _ ha]

/-- C2: for all valid inputs, the score returned by `compute_redundancy` lies
in [0, 1], and the redundancy matrix built in `eda` has every cell in [0, 1]
with every diagonal cell exactly 1: the pair enumeration visits only ordered
pairs of distinct positions, so the diagonal is never written and keeps the
all-ones seed value from line 631. -/
theorem C2_range_invariant (env : MLEnv) (task : Task) (g x y : Frame)
    (objective : String) (r : ℚ) (t' : Task)
    (z : List (String × List ℚ)) (m : List (List ℚ)) (t2 : Task) (i j : Nat)
    (h1 : compute_redundancy env task g x y objective = Except.ok (r, t'))
    (h2 : eda_redundancy_matrix env task g z = Except.ok (m, t2))
    (hi : i < z.length) (hj : j < z.length) :
    (0 ≤ r ∧ r ≤ 1) ∧ (0 ≤ matGet m i j ∧ matGet m i j ≤ 1) ∧
      matGet m i i = 1 := by
  unfold eda_redundancy_matrix at h2
  have hfold := foldlM_ok_invariant (buildStep env g z)
    (fun st => (∀ a b, 0 ≤ matGet st.1 a b ∧ matGet st.1 a b ≤ 1) ∧
      (∀ a, a < z.length → matGet st.1 a a = 1))
    (fun p => p.1 ≠ p.2)
    (pairsList z.length)
    (fun p hp => (pairsList_mem z.length p hp).2.2)
    (fun s p s' hA hok hP => by
      obtain ⟨ot, st, hsel, hcr, hout⟩ := buildStep_ok env g z s p s' hok
      have hb := compute_redundancy_score_bounds env s.2 g
        (Frame.ofVals (colVals z p.1)) (Frame.ofVals ot.2) ot.1 st.1 st.2
        (by rw [← hcr])
      constructor
      · intro a b
        rw [hout]
        rcases matGet_matSet_cases s.1 p.1 p.2 st.1 a b with hc | hc
        · simp only at hc ⊢
          rw [hc]
          exact hb
        · simp only at hc ⊢
          rw [hc]
          exact hP.1 a b
      · intro a ha
        rw [hout]
        simp only
        rw [matGet_matSet_diag s.1 p.1 p.2 st.1 a hA]
        exact hP.2 a ha)
    _ _ h2
    ⟨fun a b => by
        rcases matGet_ones z.length a b with hc | hc
        · rw [hc]; norm_num
        · rw [hc]; norm_num,
      fun a ha => matGet_ones_diag z.length a ha⟩
  exact ⟨compute_redundancy_score_bounds env task g x y objective r t' h1,
    hfold.1 i j, hfold.2 i hi⟩

/-- C5: if a column of the combined table matches none of the four role
lists, the matrix build fails with an error when that column is encountered
as a prediction target — with at least two columns, every column is a target
of some pair — and no matrix is returned: a successful result requires every
pair's dispatch and score to succeed (the `Except` fold aborts at the first
failing pair). -/
theorem C5_unknown_role_aborts_build (env : MLEnv) (task : Task) (g : Frame)
    (z : List (String × List ℚ)) (j : Nat) (m : List (List ℚ)) (t' : Task)
    (hn : 2 ≤ z.length) (hj : j < z.length)
    (h1 : colName z j ∉ task.X_CON_NAMES)
    (h2 : colName z j ∉ task.X_CAT_BIN_NAMES)
    (h3 : colName z j ∉ task.X_CAT_MULT_NAMES)
    (h4 : colName z j ∉ task.Y_NAMES) :
    eda_redundancy_matrix env task g z ≠ Except.ok (m, t') := by
  intro hok
  unfold eda_redundancy_matrix at hok
  have hpres : ∀ s a s', buildStep env g z s a = Except.ok s' →
      (s.2.X_CON_NAMES = task.X_CON_NAMES ∧
        s.2.X_CAT_BIN_NAMES = task.X_CAT_BIN_NAMES ∧
        s.2.X_CAT_MULT_NAMES = task.X_CAT_MULT_NAMES ∧
        s.2.Y_NAMES = task.Y_NAMES) →
      (s'.2.X_CON_NAMES = task.X_CON_NAMES ∧
        s'.2.X_CAT_BIN_NAMES = task.X_CAT_BIN_NAMES ∧
        s'.2.X_CAT_MULT_NAMES = task.X_CAT_MULT_NAMES ∧
        s'.2.Y_NAMES = task.Y_NAMES) := by
    intro s a s' hok' hP
    obtain ⟨ot, st, hsel, hcr, hout⟩ := buildStep_ok env g z s a s' hok'
    obtain ⟨o, i2, hsh⟩ := compute_redundancy_task_shape env s.2 g
      (Frame.ofVals (colVals z a.1)) (Frame.ofVals ot.2) ot.1 st.1 st.2
      (by rw [← hcr])
    rw [hout]
    simp only
    rw [hsh]
    exact hP
  obtain ⟨i0, hi0, hne⟩ : ∃ i0, i0 < z.length ∧ i0 ≠ j := by
    by_cases hj0 : j = 0
    · exact ⟨1, by omega, by omega⟩
    · exact ⟨0, by omega, by omega⟩
  obtain ⟨t, t'', hPt, hstep⟩ :=
    foldlM_ok_step_exists (buildStep env g z) _ hpres (pairsList z.length)
      _ _ hok ⟨rfl, rfl, rfl, rfl⟩ (i0, j)
      (mem_pairsList z.length i0 j hi0 hj hne)
  obtain ⟨ot, st, hsel, _, _⟩ := buildStep_ok env g z t (i0, j) t'' hstep
  rcases selectObjectiveTarget_ok_role t.2 _ _ _ hsel with hr | hr | hr | hr
  · rw [hPt.1] at hr
    exact h1 hr
  · rw [hPt.2.1] at hr
    exact h2 hr
  · rw [hPt.2.2.1] at hr
    exact h3 hr
  · rw [hPt.2.2.2] at hr
    exact h4 hr

/-! ### Concrete instances for witnesses and the counterexample -/

/-- A concrete oracle: two fixed group-respecting splits per repeat, and a
predictor that replays the test predictors (a perfect fit for `x = y`). -/
def envC : MLEnv :=
  { splitsFn := fun k r _ => List.replicate (k * r) ([0, 1], [2, 3])
    predictFn := fun _ _ _ _ _ x_tst => x_tst.vals }

/-- A concrete task configuration before any engine call. -/
def taskC : Task :=
  { N_CV_FOLDS := 2, N_PRED_OUTER_CV := 4, N_PRED_INNER_CV := 2, N_SAMPLES_RS := 1,
    N_JOBS := -2, OBJECTIVE := "regression", X_CON_NAMES := ["a"],
    X_CAT_BIN_NAMES := [], X_CAT_MULT_NAMES := [], Y_NAMES := ["t"],
    n_rep_outer_cv := none, n_rep_inner_cv := none }

/-- `taskC` after a full `compute_redundancy` call inserted both repeat
counts. -/
def taskC2 : Task := { taskC with n_rep_outer_cv := some 1, n_rep_inner_cv := some 1 }

/-- `taskC` after a single outer-fold step inserted the inner repeat count. -/
def taskCi : Task := { taskC with n_rep_inner_cv := some 1 }

/-- Concrete group vector: two groups of two rows. -/
def gC : Frame := ⟨[0, 1, 2, 3], [0, 0, 1, 1]⟩

/-- Concrete predictor column. -/
def xC : Frame := ⟨[0, 1, 2, 3], [1, 2, 3, 4]⟩

/-- Concrete target column, a pure copy of the predictor. -/
def yC : Frame := ⟨[0, 1, 2, 3], [1, 2, 3, 4]⟩

/-- Concrete combined table with a continuous predictor and the designated
target. -/
def zC : List (String × List ℚ) := [("a", [1, 2, 3, 4]), ("t", [1, 2, 3, 4])]

/-- Concrete combined table whose second column matches no role list. -/
def zBad : List (String × List ℚ) := [("a", [1, 2, 3, 4]), ("u", [1, 2, 3, 4])]

/-- A task with all four role lists populated and a non-regression
objective. -/
def taskD : Task :=
  { taskC with
    OBJECTIVE := "binary"
    X_CON_NAMES := ["a"]
    X_CAT_BIN_NAMES := ["b"]
    X_CAT_MULT_NAMES := ["m"]
    Y_NAMES := ["t"] }

/-- A task with one column name listed as both continuous and
binary-categorical. -/
def taskE : Task :=
  { taskC with
    X_CON_NAMES := ["c"]
    X_CAT_BIN_NAMES := ["c"] }

/-- Witness for C1 at the concrete instance: both outer folds score R² = 1 and
the returned redundancy is `max 0 (mean [1, 1])`. -/
theorem C1_witness :
    compute_redundancy envC taskC gC xC yC "regression" =
      Except.ok (max 0 (listMean [1, 1]), taskC2) :=
  C1_redundancy_eq_floored_mean envC taskC gC xC yC "regression"
    (⟨"LGBMRegressor", "huber", 100, -1, 100, false⟩, lgbm_space) [1, 1] taskC2
    rfl
    (by norm_num [redundancyFoldScores, outerFoldStep, split_data, Frame.iloc,
      Frame.reset_index, liftOption, getScorer, foldScore, r2Score, ssRes,
      ssTot, listMean, ceilDivNat, envC, taskC, taskC2, gC, xC, yC, bind,
      Except.bind, pure, Except.pure, List.foldlM, List.replicate,
      List.sum_cons])

/-- Witness for C2 at the concrete instance. -/
theorem C2_witness :
    ((0 : ℚ) ≤ 1 ∧ (1 : ℚ) ≤ 1) ∧
      (0 ≤ matGet [[1, 1], [1, 1]] 0 1 ∧ matGet [[1, 1], [1, 1]] 0 1 ≤ 1) ∧
      matGet [[1, 1], [1, 1]] 0 0 = 1 :=
  C2_range_invariant envC taskC gC xC yC "regression" 1 taskC2 zC
    [[1, 1], [1, 1]] taskC2 0 1
    (by norm_num [compute_redundancy, redundancyFoldScores, outerFoldStep,
      prepare, split_data, Frame.iloc, Frame.reset_index, liftOption,
      getScorer, foldScore, r2Score, ssRes, ssTot, listMean, ceilDivNat,
      envC, taskC, taskC2, gC, xC, yC, bind, Except.bind, pure, Except.pure,
      List.foldlM, List.replicate, List.sum_cons])
    (by norm_num [eda_redundancy_matrix, buildStep, pairsList,
      selectObjectiveTarget, colName, colVals, Frame.ofVals, matSet, matGet,
      compute_redundancy, redundancyFoldScores, outerFoldStep, prepare,
      split_data, Frame.iloc, Frame.reset_index, liftOption, getScorer,
      foldScore, r2Score, ssRes, ssTot, listMean, ceilDivNat, envC, taskC,
      taskC2, gC, zC, bind, Except.bind, pure, Except.pure, List.foldlM,
      List.replicate, List.sum_cons, List.range_succ])
    (by norm_num [zC]) (by norm_num [zC])

/-- Witness for C3: the four roles of `taskD` dispatch as claimed, with the
factorized labels evaluated. -/
theorem C3_witness :
    selectObjectiveTarget taskD [1, 1, 2] "a" =
        Except.ok ("regression", [1, 1, 2]) ∧
      selectObjectiveTarget taskD [1, 1, 2] "b" =
        Except.ok ("binary", factorizeList [1, 1, 2]) ∧
      selectObjectiveTarget taskD [1, 1, 2] "m" =
        Except.ok ("regression", [1, 1, 2]) ∧
      selectObjectiveTarget taskD [1, 1, 2] "t" =
        Except.ok ("binary", factorizeList [1, 1, 2]) ∧
      factorizeList [1, 1, 2] = [0, 0, 1] := by
  refine ⟨(C3_objective_dispatch_by_role taskD [1, 1, 2] "a").1 (by decide),
    (C3_objective_dispatch_by_role taskD [1, 1, 2] "b").2.1 (by decide),
    (C3_objective_dispatch_by_role taskD [1, 1, 2] "m").2.2.1 (by decide),
    ?_, ?_⟩
  · have h := (C3_objective_dispatch_by_role taskD [1, 1, 2] "t").2.2.2 (by decide)
    simpa [taskD, taskC] using h
  · decide

/-- Witness for C4 at the spec's Scenario D objective string. -/
theorem C4_witness :
    prepare "ordinal" = Except.error "OBJECTIVE not found." ∧
      compute_redundancy envC taskC gC xC yC "ordinal" =
        Except.error "OBJECTIVE not found." :=
  C4_unsupported_objective_error "ordinal" envC taskC gC xC yC
    (by decide) (by decide) (by decide)

/-- Witness for C5: with the unknown column "u" as a prediction target, the
concrete build does not return this (or, by the theorem, any) matrix. -/
theorem C5_witness :
    eda_redundancy_matrix envC taskC gC zBad ≠
      Except.ok ([[1, 1], [1, 1]], taskC2) :=
  C5_unknown_role_aborts_build envC taskC gC zBad 1 [[1, 1], [1, 1]] taskC2
    (by decide) (by decide) (by decide) (by decide) (by decide) (by decide)

/-- Witness for C6 at the concrete instance: outer repeat `ceil(4/4) = 1`,
`2 × 1` splits, inner repeat `ceil(2/2) = 1` from the two-row outer-train
partition. -/
theorem C6_witness :
    taskC2.n_rep_outer_cv =
        some (ceilDivNat taskC.N_PRED_OUTER_CV gC.vals.length) ∧
      (envC.splitsFn taskC.N_CV_FOLDS
          (ceilDivNat taskC.N_PRED_OUTER_CV gC.vals.length) gC).length
        = taskC.N_CV_FOLDS * ceilDivNat taskC.N_PRED_OUTER_CV gC.vals.length ∧
      (([(1 : ℚ)], taskCi) : List ℚ × Task).2.n_rep_inner_cv =
        some (ceilDivNat (([], taskC) : List ℚ × Task).2.N_PRED_INNER_CV
          (((⟨[0, 1], [0, 0]⟩ : Frame), (⟨[0, 1], [1, 1]⟩ : Frame)).1.vals.length)) :=
  C6_repeat_counts_and_split_count envC taskC gC xC yC "regression" 1 taskC2
    ([], taskC) ([0, 1], [2, 3]) ([1], taskCi)
    (⟨[0, 1], [0, 0]⟩, ⟨[0, 1], [1, 1]⟩)
    (fun k rep gg => by simp [envC, repeatedGroupKFoldCount])
    (by norm_num [compute_redundancy, redundancyFoldScores, outerFoldStep,
      prepare, split_data, Frame.iloc, Frame.reset_index, liftOption,
      getScorer, foldScore, r2Score, ssRes, ssTot, listMean, ceilDivNat,
      envC, taskC, taskC2, gC, xC, yC, bind, Except.bind, pure, Except.pure,
      List.foldlM, List.replicate, List.sum_cons])
    (by norm_num [outerFoldStep, split_data, Frame.iloc, Frame.reset_index,
      liftOption, getScorer, foldScore, r2Score, ssRes, ssTot, listMean,
      ceilDivNat, envC, taskC, taskCi, gC, xC, yC, bind, Except.bind, pure,
      Except.pure])
    (by decide)

/-- Witness for C7: the regression objective scores R² (evaluated to 1 on a
perfect prediction). -/
theorem C7_witness :
    ("regression" = "regression" ∧ (1 : ℚ) = r2Score [3, 4] [3, 4]) ∨
      (("regression" = "binary" ∨ "regression" = "multiclass") ∧
        (1 : ℚ) = balancedAccuracyAdjusted [3, 4] [3, 4]) :=
  C7_metric_fixed_by_objective "regression" [3, 4] [3, 4] 1
    (by norm_num [foldScore, r2Score, ssRes, ssTot, listMean])

/-- Counterexample for C8 as stated: at this concrete call the task record
observed after `compute_redundancy` returns is not the one passed in — the
two derived repeat-count entries were inserted in place. -/
theorem C8_counterexample :
    compute_redundancy envC taskC gC xC yC "regression" =
        Except.ok (1, taskC2) ∧
      taskC2 ≠ taskC := by
  constructor
  · norm_num [compute_redundancy, redundancyFoldScores, outerFoldStep,
      prepare, split_data, Frame.iloc, Frame.reset_index, liftOption,
      getScorer, foldScore, r2Score, ssRes, ssTot, listMean, ceilDivNat,
      envC, taskC, taskC2, gC, xC, yC, bind, Except.bind, pure, Except.pure,
      List.foldlM, List.replicate, List.sum_cons]
  · decide

/-- Witness for the amended C8 at the concrete instance. -/
theorem C8_witness : taskC2.core = taskC.core :=
  C8_amended_task_mutation envC taskC gC xC yC "regression" 1 taskC2
    (by norm_num [compute_redundancy, redundancyFoldScores, outerFoldStep,
      prepare, split_data, Frame.iloc, Frame.reset_index, liftOption,
      getScorer, foldScore, r2Score, ssRes, ssTot, listMean, ceilDivNat,
      envC, taskC, taskC2, gC, xC, yC, bind, Except.bind, pure, Except.pure,
      List.foldlM, List.replicate, List.sum_cons])

/-- Witness for C9: the column "c" is listed as both continuous and
binary-categorical in `taskE`, and is dispatched to regression without
error. -/
theorem C9_witness :
    selectObjectiveTarget taskE [1, 2] "c" = Except.ok ("regression", [1, 2]) :=
  (C9_role_precedence taskE [1, 2] "c").1 (by decide)

/-- Witness for C10: a concrete three-row slice and the empty-dataframe
case with junk indices. -/
theorem C10_witness :
    split_data (⟨[0, 1, 2], [5, 6, 7]⟩ : Frame) [0, 2] [1] =
        some (⟨[0, 1], [5, 7]⟩, ⟨[0], [6]⟩) ∧
      split_data (⟨[], []⟩ : Frame) [3] [4] = some (⟨[], []⟩, ⟨[], []⟩) := by
  constructor
  · exact ((C10_split_data_slices ⟨[0, 1, 2], [5, 6, 7]⟩ [0, 2] [1]).1
      (by decide) (by decide) (by decide)).trans (by decide)
  · exact (C10_split_data_slices ⟨[], []⟩ [3] [4]).2 rfl

end IML
